import Mathlib

/-!
Verification of the resilience middleware (walterfetch).

Shallow embedding of `src/middleware/rate_limiter.py`,
`src/middleware/proxy_manager.py` and `src/middleware/cache.py`.
Python floats are modelled as exact rationals (`ℚ`); the claims under
study are about the algebraic formulas and state machines, not about
IEEE-754 rounding.  Python's `time.time()` readings appear as explicit
`now : ℚ` parameters; `random.uniform(0, b)` draws appear as explicit
parameters constrained to `[0, b]`.  Python dicts are modelled as
association lists in insertion order.
-/

/-! ### Token-bucket rate limiter (`RateLimiter`, rate_limiter.py lines 33-103)

State of `RateLimiter`: `rate = requests_per_second`, `burst`,
`tokens`, `last_update`.  `__init__` sets `tokens = float(burst)` and
`last_update = time.time()`. -/

structure RateLimiter where
  rate : ℚ
  burst : ℚ
  tokens : ℚ
  last_update : ℚ
deriving DecidableEq, Repr

/-- `RateLimiter.__init__`: the bucket starts full. -/
def RateLimiter.init (requests_per_second : ℚ) (burst : ℚ) (now : ℚ) : RateLimiter :=
  { rate := requests_per_second, burst := burst, tokens := burst, last_update := now }

/-- The refill performed at the top of each iteration of the `while True`
loop in `RateLimiter.acquire`:
`self.tokens = min(self.burst, self.tokens + elapsed * self.rate)`,
`self.last_update = now`. -/
def RateLimiter.refill (rl : RateLimiter) (now : ℚ) : RateLimiter :=
  { rl with
      tokens := min rl.burst (rl.tokens + (now - rl.last_update) * rl.rate),
      last_update := now }

/-- One iteration of the loop body of `RateLimiter.acquire`: refill, then
deduct `n` tokens if enough are available (returning `true`), otherwise
leave the bucket refilled and report `false` (the Python code then sleeps
and re-runs the loop body with a later clock reading). -/
def RateLimiter.acquireStep (rl : RateLimiter) (n : ℚ) (now : ℚ) : RateLimiter × Bool :=
  let rl2 := rl.refill now
  if n ≤ rl2.tokens then ({ rl2 with tokens := rl2.tokens - n }, true)
  else (rl2, false)

/-- Run a sequence of acquire-loop iterations; each element of `calls` is
a pair `(n, now)` of the requested token count and the clock reading at
that iteration.  Any interleaving of `acquire` calls (including the
re-checks after a sleep) is such a sequence. -/
def RateLimiter.run (rl : RateLimiter) (calls : List (ℚ × ℚ)) : RateLimiter :=
  calls.foldl (fun s c => (s.acquireStep c.1 c.2).1) rl

/-- Clock readings are non-decreasing, starting from the bucket's
`last_update` timestamp. -/
def ClockOK : ℚ → List (ℚ × ℚ) → Prop
  | _, [] => True
  | t, c :: rest => t ≤ c.2 ∧ ClockOK c.2 rest

/-! ### Circuit breaker (`CircuitBreaker`, rate_limiter.py lines 247-367) -/

inductive BreakerState where
  | closed
  | opened
  | halfOpen
deriving DecidableEq, Repr

structure CircuitBreaker where
  failure_threshold : ℕ
  recovery_timeout : ℚ
  state : BreakerState
  failure_count : ℕ
  last_failure_time : Option ℚ
  success_count : ℕ
deriving DecidableEq, Repr

/-- `CircuitBreaker.__init__`. -/
def CircuitBreaker.init (failure_threshold : ℕ) (recovery_timeout : ℚ) : CircuitBreaker :=
  { failure_threshold := failure_threshold, recovery_timeout := recovery_timeout,
    state := BreakerState.closed, failure_count := 0,
    last_failure_time := none, success_count := 0 }

/-- `CircuitBreaker._on_success` (lines 324-334): reset the failure
count; in HALF_OPEN increment the success count and close once it
reaches 2 (resetting the count).  Note the success count is NOT touched
in any other state. -/
def CircuitBreaker.onSuccess (cb : CircuitBreaker) : CircuitBreaker :=
  let cb1 := { cb with failure_count := 0 }
  if cb1.state = BreakerState.halfOpen then
    let cb2 := { cb1 with success_count := cb1.success_count + 1 }
    if 2 ≤ cb2.success_count then
      { cb2 with state := BreakerState.closed, success_count := 0 }
    else cb2
  else cb1

/-- `CircuitBreaker._on_failure` (lines 336-350): increment the failure
count and record the failure time; HALF_OPEN reopens immediately,
otherwise the breaker opens when the count reaches the threshold.  The
success count is NOT reset here. -/
def CircuitBreaker.onFailure (cb : CircuitBreaker) (now : ℚ) : CircuitBreaker :=
  let cb1 := { cb with
      failure_count := cb.failure_count + 1,
      last_failure_time := some now }
  if cb1.state = BreakerState.halfOpen then
    { cb1 with state := BreakerState.opened }
  else if cb1.failure_threshold ≤ cb1.failure_count then
    { cb1 with state := BreakerState.opened }
  else cb1

/-- `CircuitBreaker._should_attempt_reset` (lines 352-357). -/
def CircuitBreaker.shouldAttemptReset (cb : CircuitBreaker) (now : ℚ) : Bool :=
  match cb.last_failure_time with
  | none => false
  | some t => decide (cb.recovery_timeout ≤ now - t)

/-- Result of one `CircuitBreaker.call`: the wrapped operation's result,
its exception propagated, or the `CircuitBreakerError` raised while
OPEN. -/
inductive CallResult where
  | ok
  | err
  | rejected
deriving DecidableEq, Repr

/-- `CircuitBreaker.call` (lines 293-322).  `opFails` tells whether the
wrapped operation raises.  Returns the new breaker state, the outcome,
and whether the wrapped operation was invoked at all. -/
def CircuitBreaker.call (cb : CircuitBreaker) (now : ℚ) (opFails : Bool) :
    CircuitBreaker × CallResult × Bool :=
  let pre : Option CircuitBreaker :=
    if cb.state = BreakerState.opened then
      if cb.shouldAttemptReset now then
        some { cb with state := BreakerState.halfOpen }
      else none
    else some cb
  match pre with
  | none => (cb, CallResult.rejected, false)
  | some cb1 =>
      if opFails then (cb1.onFailure now, CallResult.err, true)
      else (cb1.onSuccess, CallResult.ok, true)

/-- Fold a sequence of calls `(now, opFails)` through the breaker. -/
def CircuitBreaker.runCalls (cb : CircuitBreaker) (calls : List (ℚ × Bool)) : CircuitBreaker :=
  calls.foldl (fun s c => (s.call c.1 c.2).1) cb

/-! ### Retry handler (`RetryConfig`, `RetryHandler`, rate_limiter.py lines 18-244) -/

structure RetryConfig where
  max_retries : ℕ
  base_delay : ℚ
  max_delay : ℚ
  exponential_base : ℚ
  jitter : Bool
  retry_on_status : List ℕ
deriving DecidableEq, Repr

/-- The `RetryConfig` dataclass defaults (with `__post_init__` filling in
the retryable status list). -/
def RetryConfig.default : RetryConfig :=
  { max_retries := 3, base_delay := 1, max_delay := 60, exponential_base := 2,
    jitter := true, retry_on_status := [429, 500, 502, 503, 504] }

/-- A value returned by the wrapped operation: `status_code` is `none`
when the object has no `status_code` attribute; `payload` identifies the
object itself. -/
structure HttpResult where
  status_code : Option ℕ
  payload : ℕ
deriving DecidableEq, Repr

/-- One invocation of the wrapped operation either raises an exception
(identified by a number) or returns a result. -/
inductive AttemptOutcome where
  | raises (e : ℕ)
  | returns (r : HttpResult)
deriving DecidableEq, Repr

/-- A failure surfaced by `RetryHandler.execute`: either the operation's
own exception, or the `httpx.HTTPStatusError` that `execute` raises when
the result's status code is in `retry_on_status` (it carries the
response). -/
inductive RetryError where
  | exn (e : ℕ)
  | httpStatus (code : ℕ) (response : HttpResult)
deriving DecidableEq, Repr

/-- The body of the `try` block of `RetryHandler.execute` (lines
186-202): evaluate the operation; a raised exception is a failure; a
result whose `status_code` is in `retry_on_status` is turned into a
raised `HTTPStatusError`; any other result is a success. -/
def attemptResult (cfg : RetryConfig) (o : AttemptOutcome) : Except RetryError HttpResult :=
  match o with
  | AttemptOutcome.raises e => Except.error (RetryError.exn e)
  | AttemptOutcome.returns r =>
      match r.status_code with
      | some c =>
          if c ∈ cfg.retry_on_status then Except.error (RetryError.httpStatus c r)
          else Except.ok r
      | none => Except.ok r

/-- The retry loop of `RetryHandler.execute` (lines 184-221), with the
attempt index `attempt` and `remaining = max_retries - attempt` further
attempts allowed; `remaining = 0` corresponds to the Python guard
`attempt == self.config.max_retries`, where the last failure is
re-raised.  `f i` is the outcome of the `i`-th invocation of the wrapped
operation.  Returns the final outcome together with the number of times
the operation was invoked. -/
def executeAux (cfg : RetryConfig) (f : ℕ → AttemptOutcome) :
    ℕ → ℕ → Except RetryError HttpResult × ℕ
  | attempt, remaining =>
      match attemptResult cfg (f attempt) with
      | Except.ok r => (Except.ok r, 1)
      | Except.error e =>
          match remaining with
          | 0 => (Except.error e, 1)
          | remaining' + 1 =>
              let rest := executeAux cfg f (attempt + 1) remaining'
              (rest.1, rest.2 + 1)

/-- `RetryHandler.execute`: run the loop from attempt 0 with
`max_retries` further attempts allowed. -/
def RetryHandler.execute (cfg : RetryConfig) (f : ℕ → AttemptOutcome) :
    Except RetryError HttpResult × ℕ :=
  executeAux cfg f 0 cfg.max_retries

/-- `RetryHandler._calculate_delay` (lines 223-244).  `jitterDraw`
models the value of `random.uniform(0, delay * 0.1)`; it is only used
when `cfg.jitter` is set. -/
def calculateDelay (cfg : RetryConfig) (attempt : ℕ) (jitterDraw : ℚ) : ℚ :=
  let delay := min (cfg.base_delay * cfg.exponential_base ^ attempt) cfg.max_delay
  if cfg.jitter then delay + jitterDraw else delay

/-! ### Proxy pool (`ProxyHealth`, `ProxyInfo`, `ProxyManager`,
proxy_manager.py lines 18-197) -/

inductive ProxyHealth where
  | healthy
  | degraded
  | failed
deriving DecidableEq, Repr

structure ProxyInfo where
  url : String
  health : ProxyHealth
  success_count : ℕ
  failure_count : ℕ
  avg_response_time : ℚ
  total_requests : ℕ
deriving DecidableEq, Repr

/-- A fresh `ProxyInfo(url=url)` as built in `ProxyManager.__init__`. -/
def ProxyInfo.mk0 (url : String) : ProxyInfo :=
  { url := url, health := ProxyHealth.healthy, success_count := 0,
    failure_count := 0, avg_response_time := 0, total_requests := 0 }

/-- `ProxyInfo.success_rate` (lines 36-41). -/
def ProxyInfo.success_rate (p : ProxyInfo) : ℚ :=
  if p.total_requests = 0 then 1
  else (p.success_count : ℚ) / (p.total_requests : ℚ)

/-- `ProxyInfo.score` (lines 43-58): `0.7 * success_rate +
0.3 * max(0, 1 - avg_response_time / 10)`. -/
def ProxyInfo.score (p : ProxyInfo) : ℚ :=
  p.success_rate * (7 / 10) + max 0 (1 - p.avg_response_time / 10) * (3 / 10)

/-- The per-proxy effect of `ProxyManager.record_success` (lines
152-176): bump the counters, update the response-time EMA with
`alpha = 0.2`, and promote DEGRADED back to HEALTHY. -/
def recordSuccess (p : ProxyInfo) (response_time : ℚ) : ProxyInfo :=
  let p1 := { p with
      success_count := p.success_count + 1,
      total_requests := p.total_requests + 1 }
  let p2 := { p1 with
      avg_response_time := (1 / 5) * response_time + (1 - 1 / 5) * p1.avg_response_time }
  if p2.health = ProxyHealth.degraded then
    { p2 with health := ProxyHealth.healthy }
  else p2

/-- The per-proxy effect of `ProxyManager.record_failure` (lines
178-197): bump the counters, then mark FAILED once `failure_count >=
max_failures`, else DEGRADED when the success rate drops below 0.5. -/
def recordFailure (max_failures : ℕ) (p : ProxyInfo) : ProxyInfo :=
  let p1 := { p with
      failure_count := p.failure_count + 1,
      total_requests := p.total_requests + 1 }
  if max_failures ≤ p1.failure_count then
    { p1 with health := ProxyHealth.failed }
  else if p1.success_rate < 1 / 2 then
    { p1 with health := ProxyHealth.degraded }
  else p1

/-- An event recorded against one proxy.  `ProxyManager._check_proxy`
(the health-check probe) ends in exactly these two calls, so probe
results are instances of these events too. -/
inductive ProxyEvent where
  | success (response_time : ℚ)
  | failure
deriving DecidableEq, Repr

def proxyStep (max_failures : ℕ) (p : ProxyInfo) : ProxyEvent → ProxyInfo
  | ProxyEvent.success t => recordSuccess p t
  | ProxyEvent.failure => recordFailure max_failures p

/-- Fold a sequence of recorded events over one proxy record. -/
def runProxyEvents (max_failures : ℕ) (p : ProxyInfo) (events : List ProxyEvent) : ProxyInfo :=
  events.foldl (proxyStep max_failures) p

/-! ### LRU cache (`CacheEntry`, `LRUCache`, cache.py lines 19-139)

The `OrderedDict` is modelled as an association list in order of
recency: the head is the least recently used entry, the tail end the
most recently used.  `move_to_end(key)` is remove-then-append;
`popitem(last=False)` removes the head. -/

structure CacheEntry where
  key : String
  value : ℕ
  created_at : ℚ
  ttl : ℤ
  hits : ℕ
  size_bytes : ℕ
deriving DecidableEq, Repr

/-- `CacheEntry.is_expired` (lines 29-33): `ttl <= 0` never expires,
otherwise expired when `now - created_at > ttl`. -/
def CacheEntry.is_expired (e : CacheEntry) (now : ℚ) : Bool :=
  if e.ttl ≤ 0 then false
  else decide ((e.ttl : ℚ) < now - e.created_at)

structure LRUCache where
  max_size : ℕ
  default_ttl : ℤ
  cache : List (String × CacheEntry)
  hits : ℕ
  misses : ℕ
deriving DecidableEq, Repr

/-- `LRUCache.__init__`. -/
def LRUCache.init (max_size : ℕ) (default_ttl : ℤ) : LRUCache :=
  { max_size := max_size, default_ttl := default_ttl, cache := [],
    hits := 0, misses := 0 }

/-- `LRUCache.get` (lines 68-98): a missing key is a miss; an expired
entry is deleted and a miss; otherwise the entry is moved to the
most-recently-used end, its hit counter bumped, and its value
returned. -/
def LRUCache.get (c : LRUCache) (key : String) (now : ℚ) : LRUCache × Option ℕ :=
  match c.cache.find? (fun p => p.1 = key) with
  | none => ({ c with misses := c.misses + 1 }, none)
  | some (_, e) =>
      if e.is_expired now then
        ({ c with
            cache := c.cache.filter (fun p => ¬ p.1 = key),
            misses := c.misses + 1 }, none)
      else
        let e2 := { e with hits := e.hits + 1 }
        ({ c with
            cache := c.cache.filter (fun p => ¬ p.1 = key) ++ [(key, e2)],
            hits := c.hits + 1 }, some e2.value)

/-- The `while len(self._cache) > self.max_size: popitem(last=False)`
eviction loop of `LRUCache.set` (lines 135-137): drop entries from the
least-recently-used end until the size bound holds. -/
def evictLoop (max_size : ℕ) : List (String × CacheEntry) → List (String × CacheEntry)
  | [] => []
  | x :: xs =>
      if max_size < (x :: xs).length then evictLoop max_size xs
      else x :: xs

/-- `LRUCache.set` (lines 100-139).  `size_bytes` models
`len(json.dumps(value))` (0 when serialization fails).  An existing key
is replaced and moved to the most-recently-used end without eviction; a
new key is appended and the eviction loop restores the size bound. -/
def LRUCache.set (c : LRUCache) (key : String) (value : ℕ) (ttl : Option ℤ)
    (now : ℚ) (size_bytes : ℕ) : LRUCache :=
  let t := ttl.getD c.default_ttl
  let entry : CacheEntry :=
    { key := key, value := value, created_at := now, ttl := t,
      hits := 0, size_bytes := size_bytes }
  if c.cache.any (fun p => p.1 = key) then
    { c with cache := c.cache.filter (fun p => ¬ p.1 = key) ++ [(key, entry)] }
  else
    { c with cache := evictLoop c.max_size (c.cache ++ [(key, entry)]) }

/-! ### Header generation (`HeaderGenerator`, proxy_manager.py lines
362-417)

Python dicts are association lists with unique keys, in insertion
order.  `d[k] = v` replaces in place when `k` is present and appends
otherwise; `d.update(other)` assigns each binding of `other` in
order.  The target URL enters `generate` only through
`urllib.parse.urlparse`'s `scheme` and `netloc` fields, which we take as
the already-parsed inputs. -/

def dictSet (m : List (String × String)) (k v : String) : List (String × String) :=
  if m.any (fun p => p.1 = k) then
    m.map (fun p => if p.1 = k then (k, v) else p)
  else m ++ [(k, v)]

def dictUpdate (m : List (String × String)) (other : List (String × String)) :
    List (String × String) :=
  other.foldl (fun acc p => dictSet acc p.1 p.2) m

/-- Python `k in d` / lookup `d.get(k)`. -/
def dictGet (m : List (String × String)) (k : String) : Option String :=
  (m.find? (fun p => p.1 = k)).map (fun p => p.2)

/-- The fixed default header block built at the top of
`HeaderGenerator.generate` (lines 393-405); `ua` is the value of
`self.user_agent_manager.get()`. -/
def defaultHeaders (ua : String) : List (String × String) :=
  [("User-Agent", ua),
   ("Accept", "text/html,application/xhtml+xml,application/xml;q=0.9,image/webp,*/*;q=0.8"),
   ("Accept-Language", "en-US,en;q=0.9"),
   ("Accept-Encoding", "gzip, deflate, br"),
   ("DNT", "1"),
   ("Connection", "keep-alive"),
   ("Upgrade-Insecure-Requests", "1"),
   ("Sec-Fetch-Dest", "document"),
   ("Sec-Fetch-Mode", "navigate"),
   ("Sec-Fetch-Site", "none"),
   ("Cache-Control", "max-age=0")]

/-- `HeaderGenerator.generate` (lines 378-417).  `custom_headers = none`
models passing `None` (the default).  Mirrors the two Python truthiness
tests `if custom_headers and 'Referer' not in custom_headers` and
`if custom_headers`. -/
def HeaderGenerator.generate (ua : String) (scheme netloc : String)
    (custom_headers : Option (List (String × String))) : List (String × String) :=
  let headers := defaultHeaders ua
  let headers :=
    match custom_headers with
    | none => headers
    | some ch =>
        if ch ≠ [] ∧ ch.any (fun p => p.1 = "Referer") = false then
          dictSet headers "Referer" (scheme ++ "://" ++ netloc ++ "/")
        else headers
  match custom_headers with
  | none => headers
  | some ch => if ch ≠ [] then dictUpdate headers ch else headers

/-! ### Spec-side helper -/

/-- The clamp function named by the specification's score formula. -/
def clamp (x lo hi : ℚ) : ℚ := max lo (min hi x)

/-- Abbreviation for intermediate breaker states of a concrete trace
(threshold 5, recovery timeout 60, the `CircuitBreaker.__init__`
defaults). -/
def cbAt (s : BreakerState) (fc : ℕ) (lft : Option ℚ) (sc : ℕ) : CircuitBreaker :=
  { failure_threshold := 5, recovery_timeout := 60, state := s,
    failure_count := fc, last_failure_time := lft, success_count := sc }

/-! ### Theorems -/

/-- C8: for every proxy record with non-negative recorded response
times, `ProxyInfo.score` equals
`0.7 * success_rate + 0.3 * clamp(1 - avg_response_time/10, 0, 1)`,
where `success_rate = success_count/total_requests` and is 1 when
`total_requests = 0`. -/
theorem proxyInfo_score_formula (p : ProxyInfo) (h : 0 ≤ p.avg_response_time) :
    p.score = (7 / 10) * p.success_rate
        + (3 / 10) * clamp (1 - p.avg_response_time / 10) 0 1
    ∧ p.success_rate =
        (if p.total_requests = 0 then 1
         else (p.success_count : ℚ) / (p.total_requests : ℚ)) := by
  refine ⟨?_, rfl⟩
  unfold ProxyInfo.score clamp
  have h1 : 1 - p.avg_response_time / 10 ≤ 1 := by linarith
  rw [min_eq_right h1]
  ring

/-- Witness for C8 at a freshly constructed proxy record. -/
theorem proxyInfo_score_formula_witness :
    (ProxyInfo.mk0 "http://p:8080").score
        = (7 / 10) * (ProxyInfo.mk0 "http://p:8080").success_rate
          + (3 / 10) * clamp (1 - (ProxyInfo.mk0 "http://p:8080").avg_response_time / 10) 0 1
    ∧ (ProxyInfo.mk0 "http://p:8080").success_rate =
        (if (ProxyInfo.mk0 "http://p:8080").total_requests = 0 then 1
         else ((ProxyInfo.mk0 "http://p:8080").success_count : ℚ)
            / ((ProxyInfo.mk0 "http://p:8080").total_requests : ℚ)) :=
  proxyInfo_score_formula (ProxyInfo.mk0 "http://p:8080") (by norm_num [ProxyInfo.mk0])

/-- C9: the delay for attempt `i` equals
`min(max_delay, base_delay * exponential_base^i)` plus, when the jitter
flag is set, the drawn amount `j ∈ [0, 0.1*delay]`; so the returned
delay always lies in `[delay, 1.1*delay]`. -/
theorem calculateDelay_formula (cfg : RetryConfig) (i : ℕ) (j : ℚ)
    (hj0 : 0 ≤ j)
    (hj1 : j ≤ min cfg.max_delay (cfg.base_delay * cfg.exponential_base ^ i) * (1 / 10)) :
    calculateDelay cfg i j
        = min cfg.max_delay (cfg.base_delay * cfg.exponential_base ^ i)
          + (if cfg.jitter then j else 0)
    ∧ min cfg.max_delay (cfg.base_delay * cfg.exponential_base ^ i) ≤ calculateDelay cfg i j
    ∧ calculateDelay cfg i j
        ≤ min cfg.max_delay (cfg.base_delay * cfg.exponential_base ^ i)
          + min cfg.max_delay (cfg.base_delay * cfg.exponential_base ^ i) * (1 / 10) := by
  have hval : calculateDelay cfg i j
      = min cfg.max_delay (cfg.base_delay * cfg.exponential_base ^ i)
        + (if cfg.jitter then j else 0) := by
    unfold calculateDelay
    rw [min_comm (cfg.base_delay * cfg.exponential_base ^ i) cfg.max_delay]
    cases hjit : cfg.jitter <;> simp [hjit]
  have h10 : 0 ≤ min cfg.max_delay (cfg.base_delay * cfg.exponential_base ^ i) := by
    linarith
  have hpart0 : 0 ≤ (if cfg.jitter then j else 0) := by
    cases hjit : cfg.jitter
    · rw [if_neg (by simp)]
    · rw [if_pos rfl]; exact hj0
  have hpart1 : (if cfg.jitter then j else 0)
      ≤ min cfg.max_delay (cfg.base_delay * cfg.exponential_base ^ i) * (1 / 10) := by
    cases hjit : cfg.jitter
    · rw [if_neg (by simp)]; linarith
    · rw [if_pos rfl]; exact hj1
  exact ⟨hval, by rw [hval]; linarith, by rw [hval]; linarith⟩

/-- Witness for C9 at the default configuration, attempt 2, draw 1/10. -/
theorem calculateDelay_formula_witness :
    calculateDelay RetryConfig.default 2 (1 / 10)
        = min RetryConfig.default.max_delay
            (RetryConfig.default.base_delay * RetryConfig.default.exponential_base ^ 2)
          + (if RetryConfig.default.jitter then (1 : ℚ) / 10 else 0)
    ∧ min RetryConfig.default.max_delay
        (RetryConfig.default.base_delay * RetryConfig.default.exponential_base ^ 2)
        ≤ calculateDelay RetryConfig.default 2 (1 / 10)
    ∧ calculateDelay RetryConfig.default 2 (1 / 10)
        ≤ min RetryConfig.default.max_delay
            (RetryConfig.default.base_delay * RetryConfig.default.exponential_base ^ 2)
          + min RetryConfig.default.max_delay
              (RetryConfig.default.base_delay * RetryConfig.default.exponential_base ^ 2)
            * (1 / 10) :=
  calculateDelay_formula RetryConfig.default 2 (1 / 10) (by norm_num)
    (by norm_num [RetryConfig.default])

/-- C6: while OPEN with less than `recovery_timeout` elapsed since the
last recorded failure, `CircuitBreaker.call` raises the distinguished
`CircuitBreakerError` without invoking the wrapped operation (state and
counters unchanged); in CLOSED or HALF_OPEN the wrapped operation is
invoked. -/
theorem circuitBreaker_call_open_rejects (cb : CircuitBreaker) (now : ℚ) (opFails : Bool) :
    (∀ t, cb.state = BreakerState.opened → cb.last_failure_time = some t →
      now - t < cb.recovery_timeout →
      cb.call now opFails = (cb, CallResult.rejected, false)) ∧
    (cb.state = BreakerState.closed ∨ cb.state = BreakerState.halfOpen →
      (cb.call now opFails).2.2 = true) := by
  constructor
  · intro t hs hl ht
    have hreset : cb.shouldAttemptReset now = false := by
      unfold CircuitBreaker.shouldAttemptReset
      rw [hl]
      simp only [decide_eq_false_iff_not, not_le]
      linarith
    unfold CircuitBreaker.call
    rw [if_pos hs, hreset]
    rfl
  · intro h
    unfold CircuitBreaker.call
    have hne : ¬ cb.state = BreakerState.opened := by
      rcases h with h | h <;> rw [h] <;> intro hc <;> exact absurd hc (by decide)
    rw [if_neg hne]
    cases opFails <;> rfl

/-- Witness for C6: an OPEN breaker 10 seconds after its last failure
(timeout 60) rejects without invoking; a fresh CLOSED breaker invokes. -/
theorem circuitBreaker_call_open_rejects_witness :
    ({ failure_threshold := 5, recovery_timeout := 60, state := BreakerState.opened,
       failure_count := 5, last_failure_time := some 0,
       success_count := 0 : CircuitBreaker }.call 10 false
      = ({ failure_threshold := 5, recovery_timeout := 60, state := BreakerState.opened,
           failure_count := 5, last_failure_time := some 0,
           success_count := 0 : CircuitBreaker }, CallResult.rejected, false)) ∧
    ((CircuitBreaker.init 5 60).call 10 false).2.2 = true :=
  ⟨(circuitBreaker_call_open_rejects _ 10 false).1 0 rfl rfl (by norm_num),
   (circuitBreaker_call_open_rejects (CircuitBreaker.init 5 60) 10 false).2 (Or.inl rfl)⟩


/-- C1, counterexample.  With the default-style breaker (threshold 5,
recovery timeout 60): five failures at time 0 open it; at time 100 it
enters HALF_OPEN and one success is recorded; at time 101 a failure
while HALF_OPEN reopens it, but `_on_failure` does not reset
`_success_count` (still 1); at time 200 it re-enters HALF_OPEN and a
SINGLE success pushes the stale counter to 2 and closes it.  This
falsifies "a single success after such a failure never closes the
breaker". -/
theorem circuitBreaker_single_success_closes :
    ((CircuitBreaker.init 5 60).runCalls
        [(0, true), (0, true), (0, true), (0, true), (0, true), (100, false),
         (101, true)]).state
      = BreakerState.opened ∧
    ((CircuitBreaker.init 5 60).runCalls
        [(0, true), (0, true), (0, true), (0, true), (0, true), (100, false),
         (101, true)]).success_count = 1 ∧
    ((CircuitBreaker.init 5 60).runCalls
        [(0, true), (0, true), (0, true), (0, true), (0, true), (100, false),
         (101, true), (200, false)]).state
      = BreakerState.closed := by
  have e1 : (CircuitBreaker.init 5 60).call 0 true
      = (cbAt BreakerState.closed 1 (some 0) 0, CallResult.err, true) := by
    simp [CircuitBreaker.init, cbAt, CircuitBreaker.call, CircuitBreaker.onFailure]
  have e2 : (cbAt BreakerState.closed 1 (some 0) 0).call 0 true
      = (cbAt BreakerState.closed 2 (some 0) 0, CallResult.err, true) := by
    simp [cbAt, CircuitBreaker.call, CircuitBreaker.onFailure]
  have e3 : (cbAt BreakerState.closed 2 (some 0) 0).call 0 true
      = (cbAt BreakerState.closed 3 (some 0) 0, CallResult.err, true) := by
    simp [cbAt, CircuitBreaker.call, CircuitBreaker.onFailure]
  have e4 : (cbAt BreakerState.closed 3 (some 0) 0).call 0 true
      = (cbAt BreakerState.closed 4 (some 0) 0, CallResult.err, true) := by
    simp [cbAt, CircuitBreaker.call, CircuitBreaker.onFailure]
  have e5 : (cbAt BreakerState.closed 4 (some 0) 0).call 0 true
      = (cbAt BreakerState.opened 5 (some 0) 0, CallResult.err, true) := by
    simp [cbAt, CircuitBreaker.call, CircuitBreaker.onFailure]
  have e6 : (cbAt BreakerState.opened 5 (some 0) 0).call 100 false
      = (cbAt BreakerState.halfOpen 0 (some 0) 1, CallResult.ok, true) := by
    simp [cbAt, CircuitBreaker.call, CircuitBreaker.onSuccess,
      CircuitBreaker.shouldAttemptReset]
    norm_num
  have e7 : (cbAt BreakerState.halfOpen 0 (some 0) 1).call 101 true
      = (cbAt BreakerState.opened 1 (some 101) 1, CallResult.err, true) := by
    simp [cbAt, CircuitBreaker.call, CircuitBreaker.onFailure]
  have e8 : (cbAt BreakerState.opened 1 (some 101) 1).call 200 false
      = (cbAt BreakerState.closed 0 (some 101) 0, CallResult.ok, true) := by
    simp [cbAt, CircuitBreaker.call, CircuitBreaker.onSuccess,
      CircuitBreaker.shouldAttemptReset]
    norm_num
  have r7 : (CircuitBreaker.init 5 60).runCalls
      [(0, true), (0, true), (0, true), (0, true), (0, true), (100, false), (101, true)]
      = cbAt BreakerState.opened 1 (some 101) 1 := by
    simp only [CircuitBreaker.runCalls, List.foldl, e1, e2, e3, e4, e5, e6, e7]
  have r8 : (CircuitBreaker.init 5 60).runCalls
      [(0, true), (0, true), (0, true), (0, true), (0, true), (100, false), (101, true),
       (200, false)]
      = cbAt BreakerState.closed 0 (some 101) 0 := by
    simp only [CircuitBreaker.runCalls, List.foldl, e1, e2, e3, e4, e5, e6, e7, e8]
  rw [r7, r8]
  exact ⟨rfl, rfl, rfl⟩

/-- C1, amended: a failure while HALF_OPEN always reopens the breaker
but leaves the HALF_OPEN success counter untouched; a success while
HALF_OPEN closes the breaker exactly when the accumulated success
counter (which may survive an intervening failure/re-open cycle) was
already at least 1, i.e. when the incremented counter reaches 2. -/
theorem halfOpen_transition_amended (cb : CircuitBreaker) (now : ℚ)
    (h : cb.state = BreakerState.halfOpen) :
    ((cb.call now true).1.state = BreakerState.opened ∧
     (cb.call now true).1.success_count = cb.success_count) ∧
    (cb.call now false).1.state =
      (if 1 ≤ cb.success_count then BreakerState.closed else BreakerState.halfOpen) := by
  obtain ⟨ft, rt, st, fc, lft, sc⟩ := cb
  change st = BreakerState.halfOpen at h
  subst h
  refine ⟨⟨?_, ?_⟩, ?_⟩
  · simp [CircuitBreaker.call, CircuitBreaker.onFailure]
  · simp [CircuitBreaker.call, CircuitBreaker.onFailure]
  · by_cases h1 : 1 ≤ sc
    · have h2 : 2 ≤ sc + 1 := by omega
      simp [CircuitBreaker.call, CircuitBreaker.onSuccess, h1, h2]
    · have h2 : ¬ 2 ≤ sc + 1 := by omega
      simp [CircuitBreaker.call, CircuitBreaker.onSuccess, h1, h2]

/-- Witness for C1's amended theorem: a HALF_OPEN breaker carrying a
stale success count of 1 reopens (counter kept) on failure, and closes
on its very next single success. -/
theorem halfOpen_transition_amended_witness :
    (((cbAt BreakerState.halfOpen 0 (some 101) 1).call 200 true).1.state
        = BreakerState.opened ∧
     ((cbAt BreakerState.halfOpen 0 (some 101) 1).call 200 true).1.success_count
        = (cbAt BreakerState.halfOpen 0 (some 101) 1).success_count) ∧
    ((cbAt BreakerState.halfOpen 0 (some 101) 1).call 200 false).1.state
      = (if 1 ≤ (cbAt BreakerState.halfOpen 0 (some 101) 1).success_count
         then BreakerState.closed else BreakerState.halfOpen) :=
  halfOpen_transition_amended (cbAt BreakerState.halfOpen 0 (some 101) 1) 200 rfl

/-- One acquire-loop iteration keeps `rate` and `burst` and stamps
`last_update := now`. -/
theorem acquireStep_fields (rl : RateLimiter) (n now : ℚ) :
    ((rl.acquireStep n now).1).rate = rl.rate ∧
    ((rl.acquireStep n now).1).burst = rl.burst ∧
    ((rl.acquireStep n now).1).last_update = now := by
  unfold RateLimiter.acquireStep RateLimiter.refill
  dsimp only
  split <;> exact ⟨rfl, rfl, rfl⟩

/-- One acquire-loop iteration preserves `0 ≤ tokens ≤ burst`. -/
theorem acquireStep_inv (rl : RateLimiter) (n now : ℚ)
    (hrate : 0 ≤ rl.rate) (ht : rl.last_update ≤ now) (hn : 0 ≤ n)
    (h0 : 0 ≤ rl.tokens) (h1 : rl.tokens ≤ rl.burst) :
    0 ≤ ((rl.acquireStep n now).1).tokens ∧
    ((rl.acquireStep n now).1).tokens ≤ rl.burst := by
  have hburst : (0 : ℚ) ≤ rl.burst := le_trans h0 h1
  have helap : 0 ≤ (now - rl.last_update) * rl.rate :=
    mul_nonneg (by linarith) hrate
  have hminlo : (0 : ℚ) ≤ min rl.burst (rl.tokens + (now - rl.last_update) * rl.rate) :=
    le_min hburst (by linarith)
  have hminhi : min rl.burst (rl.tokens + (now - rl.last_update) * rl.rate) ≤ rl.burst :=
    min_le_left _ _
  unfold RateLimiter.acquireStep RateLimiter.refill
  dsimp only
  split
  · next hcond =>
      dsimp only at hcond ⊢
      constructor
      · linarith
      · linarith
  · exact ⟨hminlo, hminhi⟩

/-- C3: for every token-bucket limiter with non-negative rate, every
sequence of acquire-loop iterations with non-negative requested amounts
and non-decreasing clock readings keeps `0 ≤ tokens ≤ burst`, the
refill at each step being the lazy
`tokens = min(burst, tokens + elapsed * rate)`.  Since the sequence is
arbitrary, the invariant holds at every observation point. -/
theorem rateLimiter_tokens_invariant (rl : RateLimiter) (calls : List (ℚ × ℚ))
    (hrate : 0 ≤ rl.rate) (h0 : 0 ≤ rl.tokens) (h1 : rl.tokens ≤ rl.burst)
    (hclock : ClockOK rl.last_update calls)
    (hn : ∀ p ∈ calls, 0 ≤ p.1) :
    (0 ≤ (rl.run calls).tokens ∧ (rl.run calls).tokens ≤ rl.burst) ∧
    (∀ now, (rl.refill now).tokens
        = min rl.burst (rl.tokens + (now - rl.last_update) * rl.rate)) := by
  refine ⟨?_, fun now => rfl⟩
  induction calls generalizing rl with
  | nil => exact ⟨h0, h1⟩
  | cons c rest ih =>
      obtain ⟨hc, hrest⟩ := hclock
      obtain ⟨hfr, hfb, hfl⟩ := acquireStep_fields rl c.1 c.2
      obtain ⟨hi0, hi1⟩ := acquireStep_inv rl c.1 c.2 hrate hc
        (hn c (List.mem_cons_self c rest)) h0 h1
      have hrun : rl.run (c :: rest) = ((rl.acquireStep c.1 c.2).1).run rest := rfl
      rw [hrun]
      have := ih ((rl.acquireStep c.1 c.2).1)
        (by rw [hfr]; exact hrate)
        hi0
        (by rw [hfb]; exact hi1)
        (by rw [hfl]; exact hrest)
        (fun p hp => hn p (List.mem_cons_of_mem c hp))
      rw [hfb] at this
      exact this

/-- Witness for C3: a 2-token bucket at 1 token/s, with a mixed
sequence of acquisitions, keeps its token count within bounds. -/
theorem rateLimiter_tokens_invariant_witness :
    (0 ≤ ((RateLimiter.init 1 2 0).run [(1, 0), (1, 1), (2, 1), (1, 3)]).tokens ∧
      ((RateLimiter.init 1 2 0).run [(1, 0), (1, 1), (2, 1), (1, 3)]).tokens
        ≤ (RateLimiter.init 1 2 0).burst) ∧
    (∀ now, ((RateLimiter.init 1 2 0).refill now).tokens
        = min (RateLimiter.init 1 2 0).burst
            ((RateLimiter.init 1 2 0).tokens
              + (now - (RateLimiter.init 1 2 0).last_update)
                * (RateLimiter.init 1 2 0).rate)) :=
  rateLimiter_tokens_invariant (RateLimiter.init 1 2 0) [(1, 0), (1, 1), (2, 1), (1, 3)]
    (by norm_num [RateLimiter.init])
    (by norm_num [RateLimiter.init])
    (by norm_num [RateLimiter.init])
    (by norm_num [ClockOK, RateLimiter.init])
    (by intro p hp; fin_cases hp <;> norm_num)

/-- If every invocation fails (raises or maps to a retryable status),
the retry loop starting at `attempt` with `remaining` further attempts
performs `remaining + 1` invocations and surfaces the failure of the
last attempt. -/
theorem executeAux_allFail (cfg : RetryConfig) (f : ℕ → AttemptOutcome)
    (hf : ∀ i, ∃ e, attemptResult cfg (f i) = Except.error e) :
    ∀ remaining attempt, ∃ e,
      attemptResult cfg (f (attempt + remaining)) = Except.error e ∧
      executeAux cfg f attempt remaining = (Except.error e, remaining + 1) := by
  intro remaining
  induction remaining with
  | zero =>
      intro attempt
      obtain ⟨e, he⟩ := hf attempt
      refine ⟨e, by simpa using he, ?_⟩
      unfold executeAux
      rw [he]
  | succ r ih =>
      intro attempt
      obtain ⟨e0, he0⟩ := hf attempt
      obtain ⟨e, he, hex⟩ := ih (attempt + 1)
      refine ⟨e, ?_, ?_⟩
      · have : attempt + (r + 1) = attempt + 1 + r := by omega
        rw [this]
        exact he
      · unfold executeAux
        rw [he0]
        dsimp only
        rw [hex]

/-- C5: when the wrapped operation fails on every invocation,
`RetryHandler.execute` invokes it exactly `max_retries + 1` times and
surfaces the failure of the final attempt unchanged. -/
theorem retryHandler_exhausts_and_raises_last (cfg : RetryConfig) (f : ℕ → AttemptOutcome)
    (hf : ∀ i, ∃ e, attemptResult cfg (f i) = Except.error e) :
    (RetryHandler.execute cfg f).2 = cfg.max_retries + 1 ∧
    ∃ e, attemptResult cfg (f cfg.max_retries) = Except.error e ∧
      (RetryHandler.execute cfg f).1 = Except.error e := by
  obtain ⟨e, he, hex⟩ := executeAux_allFail cfg f hf cfg.max_retries 0
  rw [Nat.zero_add] at he
  unfold RetryHandler.execute
  rw [hex]
  exact ⟨rfl, e, he, rfl⟩

/-- Witness for C5: with `max_retries = 2` and an operation that always
raises, `execute` performs exactly 3 invocations and re-raises the
exception. -/
theorem retryHandler_exhausts_and_raises_last_witness :
    (RetryHandler.execute
        { max_retries := 2, base_delay := 1, max_delay := 60, exponential_base := 2,
          jitter := true, retry_on_status := [429, 500, 502, 503, 504] }
        (fun _ => AttemptOutcome.raises 7)).2 = 2 + 1 ∧
    ∃ e, attemptResult
        { max_retries := 2, base_delay := 1, max_delay := 60, exponential_base := 2,
          jitter := true, retry_on_status := [429, 500, 502, 503, 504] }
        ((fun _ => AttemptOutcome.raises 7) 2) = Except.error e ∧
      (RetryHandler.execute
        { max_retries := 2, base_delay := 1, max_delay := 60, exponential_base := 2,
          jitter := true, retry_on_status := [429, 500, 502, 503, 504] }
        (fun _ => AttemptOutcome.raises 7)).1 = Except.error e :=
  retryHandler_exhausts_and_raises_last _ (fun _ => AttemptOutcome.raises 7)
    (fun _ => ⟨RetryError.exn 7, rfl⟩)

/-- A successful `attemptResult` never carries a retryable status
code. -/
theorem attemptResult_ok_status (cfg : RetryConfig) (o : AttemptOutcome) (r : HttpResult)
    (h : attemptResult cfg o = Except.ok r) :
    ∀ c, r.status_code = some c → c ∉ cfg.retry_on_status := by
  intro c hc hmem
  cases o with
  | raises e => exact absurd h (by unfold attemptResult; intro hx; cases hx)
  | returns r' =>
      unfold attemptResult at h
      dsimp only at h
      cases hs : r'.status_code with
      | none =>
          rw [hs] at h
          cases h
          rw [hs] at hc
          cases hc
      | some c' =>
          rw [hs] at h
          dsimp only at h
          by_cases hin : c' ∈ cfg.retry_on_status
          · rw [if_pos hin] at h
            cases h
          · rw [if_neg hin] at h
            cases h
            rw [hs] at hc
            cases hc
            exact hin hmem

/-- Any `ok` outcome of the retry loop came from an `ok`
`attemptResult`, so its status code is not retryable. -/
theorem executeAux_ok_status (cfg : RetryConfig) (f : ℕ → AttemptOutcome) :
    ∀ remaining attempt r n,
      executeAux cfg f attempt remaining = (Except.ok r, n) →
      ∀ c, r.status_code = some c → c ∉ cfg.retry_on_status := by
  intro remaining
  induction remaining with
  | zero =>
      intro attempt r n h
      unfold executeAux at h
      cases ha : attemptResult cfg (f attempt) with
      | ok r' =>
          rw [ha] at h
          cases h
          exact attemptResult_ok_status cfg (f attempt) r ha
      | error e =>
          rw [ha] at h
          cases h
  | succ rem ih =>
      intro attempt r n h
      unfold executeAux at h
      cases ha : attemptResult cfg (f attempt) with
      | ok r' =>
          rw [ha] at h
          cases h
          exact attemptResult_ok_status cfg (f attempt) r ha
      | error e =>
          rw [ha] at h
          dsimp only at h
          cases hrec : executeAux cfg f (attempt + 1) rem with
          | mk res cnt =>
              rw [hrec] at h
              simp only [Prod.mk.injEq] at h
              obtain ⟨h1, h2⟩ := h
              subst h1
              exact ih (attempt + 1) r cnt hrec
  
/-- C10: `RetryHandler.execute` never returns a result whose status
code lies in the configured retryable set; such results are always
converted into raised errors, including on the final attempt. -/
theorem execute_never_returns_retryable (cfg : RetryConfig) (f : ℕ → AttemptOutcome)
    (r : HttpResult) (n : ℕ)
    (h : RetryHandler.execute cfg f = (Except.ok r, n)) :
    ∀ c, r.status_code = some c → c ∉ cfg.retry_on_status :=
  executeAux_ok_status cfg f cfg.max_retries 0 r n h

/-- Witness for C10: an operation returning status 200 on the first
attempt is returned, and 200 is indeed not retryable. -/
theorem execute_never_returns_retryable_witness :
    (200 : ℕ) ∉ RetryConfig.default.retry_on_status :=
  execute_never_returns_retryable RetryConfig.default
    (fun _ => AttemptOutcome.returns { status_code := some 200, payload := 0 })
    { status_code := some 200, payload := 0 } 1 rfl 200 rfl

/-- `record_success` never changes a FAILED proxy's health: the only
health write there is DEGRADED → HEALTHY. -/
theorem recordSuccess_keeps_failed (p : ProxyInfo) (t : ℚ)
    (h : p.health = ProxyHealth.failed) :
    (recordSuccess p t).health = ProxyHealth.failed := by
  unfold recordSuccess
  dsimp only
  rw [if_neg]
  · exact h
  · rw [h]
    intro hc
    exact absurd hc (by decide)

/-- One recorded event preserves "FAILED implies the failure count has
reached `max_failures`". -/
theorem proxyStep_failed_inv (max_failures : ℕ) (p : ProxyInfo) (e : ProxyEvent)
    (h : p.health = ProxyHealth.failed → max_failures ≤ p.failure_count) :
    (proxyStep max_failures p e).health = ProxyHealth.failed →
      max_failures ≤ (proxyStep max_failures p e).failure_count := by
  obtain ⟨url, health, sc, fc, art, tr⟩ := p
  intro hs
  cases e with
  | success t =>
      cases health with
      | healthy => simp [proxyStep, recordSuccess] at hs
      | degraded => simp [proxyStep, recordSuccess] at hs
      | failed =>
          have hle : max_failures ≤ fc := h rfl
          simp [proxyStep, recordSuccess]
          exact hle
  | failure =>
      by_cases h1 : max_failures ≤ fc + 1
      · simp [proxyStep, recordFailure, h1]
      · cases health with
        | healthy =>
            simp [proxyStep, recordFailure, h1] at hs
            split_ifs at hs
        | degraded =>
            simp [proxyStep, recordFailure, h1] at hs
        | failed =>
            have hle : max_failures ≤ fc := h rfl
            omega

/-- C7: a proxy record built by `ProxyManager.__init__` and subjected to
any sequence of `record_success`/`record_failure` events (the
health-check probe records through the same two calls) is FAILED only
when its accumulated failure count has reached `max_failures`, and once
FAILED a further `record_success` never changes its health. -/
theorem proxy_failed_monotone (max_failures : ℕ) (url : String) (events : List ProxyEvent) :
    ((runProxyEvents max_failures (ProxyInfo.mk0 url) events).health = ProxyHealth.failed →
      max_failures ≤ (runProxyEvents max_failures (ProxyInfo.mk0 url) events).failure_count) ∧
    (∀ t, (runProxyEvents max_failures (ProxyInfo.mk0 url) events).health = ProxyHealth.failed →
      (recordSuccess (runProxyEvents max_failures (ProxyInfo.mk0 url) events) t).health
        = ProxyHealth.failed) := by
  constructor
  · have main : ∀ (p : ProxyInfo),
        (p.health = ProxyHealth.failed → max_failures ≤ p.failure_count) →
        ((runProxyEvents max_failures p events).health = ProxyHealth.failed →
          max_failures ≤ (runProxyEvents max_failures p events).failure_count) := by
      induction events with
      | nil => intro p hp; exact hp
      | cons e rest ih =>
          intro p hp
          exact ih (proxyStep max_failures p e) (proxyStep_failed_inv max_failures p e hp)
    exact main (ProxyInfo.mk0 url) (by intro hx; simp [ProxyInfo.mk0] at hx)
  · intro t hfail
    exact recordSuccess_keeps_failed _ t hfail

/-- Witness for C7: two failures with `max_failures = 2` mark the proxy
FAILED (count has reached the threshold) and a later success leaves it
FAILED. -/
theorem proxy_failed_monotone_witness :
    (2 ≤ (runProxyEvents 2 (ProxyInfo.mk0 "http://p:8080")
        [ProxyEvent.failure, ProxyEvent.failure]).failure_count) ∧
    ((recordSuccess (runProxyEvents 2 (ProxyInfo.mk0 "http://p:8080")
        [ProxyEvent.failure, ProxyEvent.failure]) 1).health = ProxyHealth.failed) := by
  have hfailed : (runProxyEvents 2 (ProxyInfo.mk0 "http://p:8080")
      [ProxyEvent.failure, ProxyEvent.failure]).health = ProxyHealth.failed := by
    simp [runProxyEvents, proxyStep, recordFailure, ProxyInfo.mk0, ProxyInfo.success_rate]
  exact ⟨(proxy_failed_monotone 2 "http://p:8080"
        [ProxyEvent.failure, ProxyEvent.failure]).1 hfailed,
    (proxy_failed_monotone 2 "http://p:8080"
        [ProxyEvent.failure, ProxyEvent.failure]).2 1 hfailed⟩

/-- The eviction loop never leaves more than `max_size` entries. -/
theorem evictLoop_length_le (max_size : ℕ) :
    ∀ l : List (String × CacheEntry), (evictLoop max_size l).length ≤ max_size
  | [] => by simp [evictLoop]
  | x :: xs => by
      unfold evictLoop
      split
      · exact evictLoop_length_le max_size xs
      · next hlt => simpa using Nat.le_of_not_lt hlt

/-- The eviction loop removes exactly the leading (least recently used)
entries: it equals dropping `length - max_size` elements from the
front. -/
theorem evictLoop_eq_drop (max_size : ℕ) :
    ∀ l : List (String × CacheEntry),
      evictLoop max_size l = l.drop (l.length - max_size)
  | [] => by simp [evictLoop]
  | x :: xs => by
      unfold evictLoop
      split
      · next hlt =>
          rw [evictLoop_eq_drop max_size xs]
          have hms : max_size ≤ xs.length := by
            have := Nat.lt_of_lt_of_le hlt (Nat.le_refl _)
            simp at this
            omega
          have hlen : (x :: xs).length - max_size = (xs.length - max_size) + 1 := by
            simp
            omega
          rw [hlen, List.drop_succ_cons]
      · next hlt =>
          have hlen : (x :: xs).length - max_size = 0 := by
            simp at hlt ⊢
            omega
          rw [hlen, List.drop_zero]

/-- Removing a present key strictly shrinks the association list. -/
theorem length_filter_ne_lt (key : String) :
    ∀ l : List (String × CacheEntry),
      l.any (fun p => p.1 = key) = true →
      (l.filter (fun p => ¬ p.1 = key)).length < l.length
  | [], h => by cases h
  | x :: xs, h => by
      by_cases hx : x.1 = key
      · have : (x :: xs).filter (fun p => ¬ p.1 = key) = xs.filter (fun p => ¬ p.1 = key) := by
          simp [List.filter, hx]
        rw [this]
        exact Nat.lt_succ_of_le (List.length_filter_le _ _)
      · have hrec : xs.any (fun p => p.1 = key) = true := by
          simp [List.any_cons, hx] at h
          simpa using h
      
        have : (x :: xs).filter (fun p => ¬ p.1 = key)
            = x :: xs.filter (fun p => ¬ p.1 = key) := by
          simp [List.filter, hx]
        rw [this]
        simpa using length_filter_ne_lt key xs hrec

/-- C4: `LRUCache.set` keeps the entry count within `max_size`
(provided it was within the bound before the call, which holds for
every cache reachable from `__init__`), and when a new key is inserted
the resulting recency list is exactly the old one with the new entry
appended and the least-recently-used prefix dropped — i.e. the evicted
entries are precisely the least recently used ones, recency being the
list order maintained by `get`/`set`. -/
theorem lruCache_set_capacity_and_eviction (c : LRUCache) (key : String) (value : ℕ)
    (ttl : Option ℤ) (now : ℚ) (size_bytes : ℕ) :
    (c.cache.length ≤ c.max_size →
      (c.set key value ttl now size_bytes).cache.length ≤ c.max_size) ∧
    (c.cache.any (fun p => p.1 = key) = false →
      (c.set key value ttl now size_bytes).cache =
        (c.cache ++ [(key,
          ({ key := key, value := value, created_at := now,
             ttl := ttl.getD c.default_ttl, hits := 0,
             size_bytes := size_bytes } : CacheEntry))]).drop
          (c.cache.length + 1 - c.max_size)) := by
  constructor
  · intro hle
    unfold LRUCache.set
    dsimp only
    by_cases hmem : c.cache.any (fun p => p.1 = key) = true
    · rw [if_pos hmem]
      dsimp only
      have hlt := length_filter_ne_lt key c.cache hmem
      rw [List.length_append]
      simp only [List.length_cons, List.length_nil]
      omega
    · rw [if_neg hmem]
      dsimp only
      exact evictLoop_length_le c.max_size _
  · intro hnot
    unfold LRUCache.set
    dsimp only
    rw [if_neg (by rw [hnot]; intro hc; cases hc)]
    dsimp only
    rw [evictLoop_eq_drop]
    have hlen : (c.cache ++ [(key,
        ({ key := key, value := value, created_at := now,
           ttl := ttl.getD c.default_ttl, hits := 0,
           size_bytes := size_bytes } : CacheEntry))]).length = c.cache.length + 1 := by
      simp
    rw [hlen]

/-- Witness for C4: inserting a second key into a full 1-entry cache
keeps the size at 1 and evicts exactly the older entry. -/
theorem lruCache_set_capacity_and_eviction_witness :
    (((LRUCache.init 1 0).set "a" 5 none 0 2).cache.length ≤ (LRUCache.init 1 0).max_size) ∧
    ((LRUCache.init 1 0).set "a" 5 none 0 2).cache =
      ((LRUCache.init 1 0).cache ++ [("a",
        ({ key := "a", value := 5, created_at := 0,
           ttl := (none : Option ℤ).getD (LRUCache.init 1 0).default_ttl, hits := 0,
           size_bytes := 2 } : CacheEntry))]).drop
        ((LRUCache.init 1 0).cache.length + 1 - (LRUCache.init 1 0).max_size) :=
  ⟨(lruCache_set_capacity_and_eviction (LRUCache.init 1 0) "a" 5 none 0 2).1
      (by simp [LRUCache.init]),
   (lruCache_set_capacity_and_eviction (LRUCache.init 1 0) "a" 5 none 0 2).2
      (by simp [LRUCache.init])⟩

/-- Lookup in a cons dictionary. -/
theorem dictGet_cons (x : String × String) (m : List (String × String)) (k : String) :
    dictGet (x :: m) k = if x.1 = k then some x.2 else dictGet m k := by
  by_cases h : x.1 = k <;> simp [dictGet, List.find?, h]

/-- `d[k'] = v` on a cons dictionary. -/
theorem dictSet_cons (x : String × String) (m : List (String × String)) (k v : String) :
    dictSet (x :: m) k v
      = (if x.1 = k then (k, v) :: m.map (fun p => if p.1 = k then (k, v) else p)
         else x :: dictSet m k v) := by
  by_cases hx : x.1 = k
  · have hany : (x :: m).any (fun p => p.1 = k) = true := by simp [hx]
    simp [dictSet, hany, hx]
  · have hany : (x :: m).any (fun p => p.1 = k)
        = m.any (fun p => p.1 = k) := by simp [hx]
    by_cases ha : m.any (fun p => p.1 = k) = true
    · simp [dictSet, hany, ha, hx]
    · simp [dictSet, hany, ha, hx]

/-- Replacing bindings of key `k'` does not affect lookups of `k ≠ k'`. -/
theorem dictGet_map_set (k k' v : String) (hk : ¬ k' = k) :
    ∀ m : List (String × String),
      dictGet (m.map (fun p => if p.1 = k' then (k', v) else p)) k = dictGet m k := by
  intro m
  induction m with
  | nil => rfl
  | cons x xs ih =>
      by_cases hx : x.1 = k'
      · rw [List.map_cons, if_pos hx, dictGet_cons, dictGet_cons]
        rw [if_neg hk, if_neg (by rw [hx]; exact hk)]
        exact ih
      · rw [List.map_cons, if_neg hx, dictGet_cons, dictGet_cons]
        by_cases hxk : x.1 = k
        · rw [if_pos hxk, if_pos hxk]
        · rw [if_neg hxk, if_neg hxk]
          exact ih

/-- The effect of a dict assignment on lookups. -/
theorem dictGet_dictSet (k k' v : String) :
    ∀ m : List (String × String),
      dictGet (dictSet m k' v) k = (if k' = k then some v else dictGet m k) := by
  intro m
  induction m with
  | nil =>
      rw [show dictSet [] k' v = [(k', v)] from rfl, dictGet_cons]
  | cons x xs ih =>
      rw [dictSet_cons]
      by_cases hx : x.1 = k'
      · rw [if_pos hx, dictGet_cons]
        dsimp only
        by_cases hkk : k' = k
        · rw [if_pos hkk, if_pos hkk]
        · rw [if_neg hkk, if_neg hkk, dictGet_map_set k k' v hkk, dictGet_cons]
          rw [if_neg (by rw [hx]; exact hkk)]
      · rw [if_neg hx, dictGet_cons]
        by_cases hxk : x.1 = k
        · have hkk : ¬ k' = k := by
            intro hk
            exact hx (by rw [hxk, hk])
          rw [if_pos hxk, if_neg hkk, dictGet_cons, if_pos hxk]
        · rw [if_neg hxk, ih, dictGet_cons, if_neg hxk]

/-- `d.update(other)` does not affect lookups of keys absent from
`other`. -/
theorem dictGet_dictUpdate_not_mem (k : String) :
    ∀ (ch m : List (String × String)), (∀ p ∈ ch, ¬ p.1 = k) →
      dictGet (dictUpdate m ch) k = dictGet m k := by
  intro ch
  induction ch with
  | nil => intro m _; rfl
  | cons x rest ih =>
      intro m h
      have hx : ¬ x.1 = k := h x (List.mem_cons_self x rest)
      have hrw : dictUpdate m (x :: rest) = dictUpdate (dictSet m x.1 x.2) rest := rfl
      rw [hrw, ih _ (fun p hp => h p (List.mem_cons_of_mem x hp)), dictGet_dictSet,
        if_neg hx]

/-- After `d.update(other)` every binding of `other` (its keys being
unique, as Python dict keys are) is found. -/
theorem dictGet_dictUpdate_mem (k v : String) :
    ∀ (ch m : List (String × String)), (ch.map Prod.fst).Nodup → (k, v) ∈ ch →
      dictGet (dictUpdate m ch) k = some v := by
  intro ch
  induction ch with
  | nil => intro m _ hm; cases hm
  | cons x rest ih =>
      intro m hnd hm
      simp only [List.map_cons, List.nodup_cons] at hnd
      obtain ⟨hx_not, hnd2⟩ := hnd
      have hrw : dictUpdate m (x :: rest) = dictUpdate (dictSet m x.1 x.2) rest := rfl
      rcases List.mem_cons.mp hm with heq | hmem
      · obtain ⟨x1, x2⟩ := x
        injection heq with h1 h2
        subst h1
        subst h2
        rw [hrw]
        have hrest : ∀ p ∈ rest, ¬ p.1 = k := by
          intro p hp hpk
          apply hx_not
          dsimp only
          rw [← hpk]
          exact List.mem_map_of_mem Prod.fst hp
        rw [dictGet_dictUpdate_not_mem k rest _ hrest, dictGet_dictSet, if_pos rfl]
      · rw [hrw]
        exact ih (dictSet m x.1 x.2) hnd2 hmem

/-- C2, counterexample: with `custom_headers = None` — the caller
supplying no Referer at all — `HeaderGenerator.generate` emits NO
Referer header: the guard `if custom_headers and 'Referer' not in
custom_headers` is false when `custom_headers` is `None` (or empty), so
the origin-based referer is only derived when a non-empty custom header
map without a Referer is passed. -/
theorem generate_no_referer_when_none :
    dictGet (HeaderGenerator.generate "Mozilla/5.0 Test" "https" "example.com" none)
      "Referer" = none := by
  rfl

/-- C2, amended: `generate` includes the origin-based Referer derived
from the target exactly when the caller passes a non-empty
custom-header map lacking a Referer; with no custom headers at all the
result has no Referer; and every caller-supplied header overrides the
generated default of the same name. -/
theorem generate_referer_and_override (ua scheme netloc : String)
    (ch : List (String × String)) (hnd : (ch.map Prod.fst).Nodup) :
    (ch ≠ [] → ch.any (fun p => p.1 = "Referer") = false →
      dictGet (HeaderGenerator.generate ua scheme netloc (some ch)) "Referer"
        = some (scheme ++ "://" ++ netloc ++ "/")) ∧
    (∀ k v, (k, v) ∈ ch →
      dictGet (HeaderGenerator.generate ua scheme netloc (some ch)) k = some v) ∧
    dictGet (HeaderGenerator.generate ua scheme netloc none) "Referer" = none := by
  refine ⟨?_, ?_, ?_⟩
  · intro hch hno
    unfold HeaderGenerator.generate
    dsimp only
    rw [if_pos hch, if_pos ⟨hch, hno⟩]
    have hnoP : ∀ p ∈ ch, ¬ p.1 = "Referer" := by
      intro p hp hpk
      have : ch.any (fun p => p.1 = "Referer") = true :=
        List.any_eq_true.mpr ⟨p, hp, by simp [hpk]⟩
      rw [hno] at this
      cases this
    rw [dictGet_dictUpdate_not_mem "Referer" ch _ hnoP, dictGet_dictSet, if_pos rfl]
  · intro k v hm
    by_cases hch : ch = []
    · subst hch
      cases hm
    · unfold HeaderGenerator.generate
      dsimp only
      by_cases hcond : ch ≠ [] ∧ ch.any (fun p => p.1 = "Referer") = false
      · rw [if_pos hch, if_pos hcond]
        exact dictGet_dictUpdate_mem k v ch _ hnd hm
      · rw [if_pos hch, if_neg hcond]
        exact dictGet_dictUpdate_mem k v ch _ hnd hm
  · rfl

/-- Witness for C2's amended theorem at a concrete identity, target and
custom header map. -/
theorem generate_referer_and_override_witness :
    dictGet (HeaderGenerator.generate "Mozilla/5.0" "https" "x.com"
        (some [("X-Test", "1")])) "Referer"
      = some ("https" ++ "://" ++ "x.com" ++ "/") ∧
    dictGet (HeaderGenerator.generate "Mozilla/5.0" "https" "x.com"
        (some [("X-Test", "1")])) "X-Test" = some "1" ∧
    dictGet (HeaderGenerator.generate "Mozilla/5.0" "https" "x.com" none) "Referer"
      = none :=
  ⟨(generate_referer_and_override "Mozilla/5.0" "https" "x.com" [("X-Test", "1")]
      (by simp)).1 (by simp) (by rfl),
   (generate_referer_and_override "Mozilla/5.0" "https" "x.com" [("X-Test", "1")]
      (by simp)).2.1 "X-Test" "1" (by simp),
   (generate_referer_and_override "Mozilla/5.0" "https" "x.com" [("X-Test", "1")]
      (by simp)).2.2⟩
